import Mathlib

/-!
Verification development for the `skills` repository.

The repository contains two Python command-line tools:
  * `scripts/quick_validate.py` — validates a skill directory's `SKILL.md`
    frontmatter against a fixed rule set;
  * `scripts/init_skill.py` — scaffolds a new skill directory from fixed
    string templates.

This file gives a shallow embedding of both tools and proves the frozen
claims about them.  Document text is modelled as a Lean `String` (a list of
Unicode code points, matching Python's `str`); the filesystem touched by the
initializer is modelled as an explicit record of directories, files and
permission bits threaded through the function.  `Path(p).resolve().name` is
modelled by passing the directory's base name to the validator directly.
-/

/-! ## Python string primitives -/

/-- Whitespace characters recognised by Python's `str.strip()` and the regex
class `\s` for the ASCII range used by this code base. -/
def isPyWS (c : Char) : Bool :=
  c == ' ' || c == '\t' || c == '\n' || c == '\r' || c == '\x0b' || c == '\x0c'

/-- Python `str.strip()` on a list of characters. -/
def pyStripL (l : List Char) : List Char :=
  ((l.dropWhile isPyWS).reverse.dropWhile isPyWS).reverse

/-- Python `str.strip()`. -/
def pyStrip (s : String) : String := ⟨pyStripL s.data⟩

/-- Python `str.split(sep)` for a one-character separator, as an accumulator
recursion over the character list.  `splitChAux sep l [] ` agrees with
Python: the empty string splits to `[""]`, and separators at the ends
produce empty parts. -/
def splitChAux (sep : Char) : List Char → List Char → List (List Char)
  | [], acc => [acc.reverse]
  | c :: rest, acc =>
    if c == sep then acc.reverse :: splitChAux sep rest []
    else splitChAux sep rest (c :: acc)

/-- Python `content.split("\n")`. -/
def splitLinesML (s : String) : List String :=
  (splitChAux '\n' s.data []).map (fun l => ⟨l⟩)

/-! ## parse_simple_yaml (quick_validate.py lines 17-38) -/

/-- Character class `[a-zA-Z_-]` of the key part of the line regex
`^([a-zA-Z_-]+):\s*(.*)$`. -/
def isKeyChar (c : Char) : Bool :=
  (decide ( 'a' ≤ c) && decide (c ≤ 'z')) ||
  (decide ( 'A' ≤ c) && decide (c ≤ 'Z')) ||
  c == '_' || c == '-'

/-- Apply the regex `^([a-zA-Z_-]+):\s*(.*)$` to an (already stripped)
line: a maximal nonempty run of key characters, then a colon, then the rest.
Returns the key and the raw text after the colon.  Greedy `\s*` followed by
`(.*)` and a later `.strip()` of the second group is equivalent to stripping
the whole after-colon text, which is done by the caller. -/
def splitKeyRaw (l : List Char) : Option (String × List Char) :=
  match l.takeWhile isKeyChar, l.dropWhile isKeyChar with
  | [], _ => none
  | k :: ks, ':' :: after => some (⟨k :: ks⟩, after)
  | _ :: _, _ => none

/-- Quote stripping of `parse_simple_yaml` (lines 33-36): if the value both
starts and ends with `"`, or both starts and ends with a single quote, drop
the first and last character (Python `value[1:-1]`).  A one-character quote
satisfies both `startswith` and `endswith`, so it is stripped to the empty
string. -/
def stripQuotes (v : String) : String :=
  let l := v.data
  if (l.head? == some '\"' && l.getLast? == some '\"') ||
     (l.head? == some '\x27' && l.getLast? == some '\x27') then
    ⟨(l.drop 1).dropLast⟩
  else v

/-- Processing of one line of the frontmatter body by `parse_simple_yaml`:
strip, skip blank lines and comment lines, then apply the key-value regex;
on a match the value is the stripped after-colon text with one layer of
surrounding quotes removed.  Non-matching lines yield `none` (silently
skipped). -/
def lineParse (line : String) : Option (String × String) :=
  let l := pyStripL line.data
  if l = [] then none
  else if l.head? == some '#' then none
  else
    match splitKeyRaw l with
    | some (k, after) => some (k, stripQuotes ⟨pyStripL after⟩)
    | none => none

/-- Python dict assignment `result[key] = value`: replace the value in place
if the key is present, otherwise append the binding at the end. -/
def dictInsert (k v : String) : List (String × String) → List (String × String)
  | [] => [(k, v)]
  | (k2, v2) :: rest =>
    if k2 = k then (k, v) :: rest else (k2, v2) :: dictInsert k v rest

/-- One step of the `for line in ...` loop of `parse_simple_yaml`. -/
def processLine (d : List (String × String)) (line : String) : List (String × String) :=
  match lineParse line with
  | some (k, v) => dictInsert k v d
  | none => d

/-- The `for` loop of `parse_simple_yaml` over the split lines. -/
def parseLines (d : List (String × String)) : List String → List (String × String)
  | [] => d
  | l :: ls => parseLines (processLine d l) ls

/-- `parse_simple_yaml(text)`: strip the text, split on newlines, and fold
the per-line processing into a dictionary (association list with unique
keys, insertion-ordered, last write wins). -/
def parse_simple_yaml (text : String) : List (String × String) :=
  parseLines [] ((splitChAux '\n' (pyStripL text.data) []).map (fun l => ⟨l⟩))

/-- Python `key in dict`. -/
def dictHas (d : List (String × String)) (k : String) : Bool :=
  d.any (fun e => e.1 == k)

/-- Python `dict[key]` as an `Option`. -/
def dictGet? (d : List (String × String)) (k : String) : Option String :=
  (d.find? (fun e => e.1 == k)).map Prod.snd

/-- Python `dict.get(key, default)`. -/
def dictGetD (d : List (String × String)) (k dflt : String) : String :=
  (dictGet? d k).getD dflt

/-! ## Frontmatter extraction (quick_validate.py lines 56-65) -/

/-- The three-character marker `---`. -/
def mk3 : List Char := ['-', '-', '-']

/-- The four characters `---` plus newline required by `^---\n`. -/
def mk4 : List Char := ['-', '-', '-', '\n']

/-- The four characters newline plus `---` required by `\n---`. -/
def nlMarker : List Char := ['\n', '-', '-', '-']

/-- Index of the first occurrence of `pat` in a character list, if any. -/
def findPat (pat : List Char) : List Char → Option Nat
  | [] => none
  | c :: rest =>
    if pat.isPrefixOf (c :: rest) then some 0
    else (findPat pat rest).map (fun n => n + 1)

/-- `re.match(r"^---\n(.*?)\n---", content, re.DOTALL)`: the text must start
with `---` plus newline; the non-greedy group then ends at the earliest
occurrence of newline plus `---` in the remainder, and the group is
everything before that occurrence. -/
def extractFm (c : String) : Option String :=
  if mk4.isPrefixOf c.data then
    match findPat nlMarker (c.data.drop 4) with
    | some k => some ⟨(c.data.drop 4).take k⟩
    | none => none
  else none

/-! ## Sorting (Python `sorted` on strings) -/

/-- Lexicographic comparison of character lists by code point, Python's
string order. -/
def lexLe : List Char → List Char → Bool
  | [], _ => true
  | _ :: _, [] => false
  | a :: as, b :: bs =>
    if a.toNat < b.toNat then true
    else if b.toNat < a.toNat then false
    else lexLe as bs

/-- Python `<=` on strings. -/
def strLe (a b : String) : Bool := lexLe a.data b.data

/-- `strLe` as a relation. -/
def strLeP (a b : String) : Prop := strLe a b = true

instance : DecidableRel strLeP := fun a b =>
  inferInstanceAs (Decidable (strLe a b = true))

/-- Python `sorted` on a list of distinct strings. -/
def sortStrs (l : List String) : List String := List.insertionSort strLeP l

/-! ## validate_skill (quick_validate.py lines 41-139) -/

/-- `ALLOWED_PROPERTIES` (line 14).  Python holds these in a set; only the
sorted enumeration and membership are observable. -/
def ALLOWED_PROPERTIES : List String :=
  ["name", "description", "license", "allowed-tools", "metadata"]

def msgNoSkillMd : String := "SKILL.md not found"

def msgNoFrontmatter : String := "No YAML frontmatter found"

def msgInvalidFormat : String := "Invalid frontmatter format"

def msgUnexpected (u : List String) : String :=
  "Unexpected key(s) in frontmatter: " ++ String.intercalate ", " u ++
    ". Allowed: " ++ String.intercalate ", " (sortStrs ALLOWED_PROPERTIES)

def msgMissingName : String := "Missing \x27name\x27 in frontmatter"

def msgMissingDescription : String := "Missing \x27description\x27 in frontmatter"

def msgNameShape (name : String) : String :=
  "Name \x27" ++ name ++ "\x27 should be hyphen-case (lowercase letters, digits, and hyphens only)"

def msgNameHyphen (name : String) : String :=
  "Name \x27" ++ name ++ "\x27 cannot start/end with hyphen or contain consecutive hyphens"

def msgNameLong (n : Nat) : String :=
  s!"Name is too long ({n} chars). Maximum is 64 characters."

def msgNameDir (name dirName : String) : String :=
  "Name \x27" ++ name ++ "\x27 does not match directory name \x27" ++ dirName ++ "\x27"

def msgDescAngle : String := "Description cannot contain angle brackets (< or >)"

def msgDescLong (n : Nat) : String :=
  s!"Description is too long ({n} chars). Maximum is 1024 characters."

def msgLines (n : Nat) : String :=
  s!"SKILL.md has {n} lines. Maximum recommended is 500."

def msgValid : String := "Skill is valid!"

/-- Character class of `^[a-z0-9-]+$` (line 96). -/
def isNameChar (c : Char) : Bool :=
  (decide ( 'a' ≤ c) && decide (c ≤ 'z')) ||
  (decide ( '0' ≤ c) && decide (c ≤ '9')) ||
  c == '-'

/-- `name.startswith("-") or name.endswith("-") or "--" in name` (line 101). -/
def badHyphens (l : List Char) : Bool :=
  l.head? == some '-' || l.getLast? == some '-' ||
    (findPat ['-', '-'] l).isSome

/-- The four name content checks (lines 95-117), applied to the stripped
name; skipped entirely when the stripped name is empty.  Returns the first
failure message, if any.  The `isinstance(name, str)` guard of line 91 is
always satisfied because the parser of this code base only produces
strings, so it has no counterpart here. -/
def nameCheck (dirName name : String) : Option String :=
  if name = "" then none
  else if !(name.data.all isNameChar) then some (msgNameShape name)
  else if badHyphens name.data then some (msgNameHyphen name)
  else if 64 < name.length then some (msgNameLong name.length)
  else if name ≠ dirName then some (msgNameDir name dirName)
  else none

/-- The description content checks (lines 125-132), applied to the stripped
description; skipped when it is empty.  As with the name, the
`isinstance(description, str)` guard of line 121 is vacuous here. -/
def descCheck (desc : String) : Option String :=
  if desc = "" then none
  else if desc.data.contains '<' || desc.data.contains '>' then some msgDescAngle
  else if 1024 < desc.length then some (msgDescLong desc.length)
  else none

/-- `validate_skill(skill_path)`.  `dirName` is `Path(skill_path).resolve().name`;
`content` is the text of `SKILL.md` inside that directory, or `none` when the
file does not exist.  The early returns of the Python function become a
nested conditional cascade.  The `isinstance(frontmatter, dict)` guard of
line 70 is always satisfied (the parser returns a dictionary
unconditionally) and therefore has no failing branch here. -/
def validate_skill (dirName : String) (content : Option String) : Bool × String :=
  match content with
  | none => (false, msgNoSkillMd)
  | some c =>
    if !(mk3.isPrefixOf c.data) then (false, msgNoFrontmatter)
    else
      match extractFm c with
      | none => (false, msgInvalidFormat)
      | some fmText =>
        let fm := parse_simple_yaml fmText
        let unexpected :=
          sortStrs ((fm.map Prod.fst).filter (fun k => !(ALLOWED_PROPERTIES.contains k)))
        if unexpected ≠ [] then (false, msgUnexpected unexpected)
        else if !(dictHas fm "name") then (false, msgMissingName)
        else if !(dictHas fm "description") then (false, msgMissingDescription)
        else
          match nameCheck dirName (pyStrip (dictGetD fm "name" "")) with
          | some m => (false, m)
          | none =>
            match descCheck (pyStrip (dictGetD fm "description" "")) with
            | some m => (false, m)
            | none =>
              if 500 < (splitChAux '\n' c.data []).length then
                (false, msgLines (splitChAux '\n' c.data []).length)
              else (true, msgValid)

/-! ## The ordered check list of §4.2 -/

/-- The four name content checks as independent (fail condition, message)
pairs, in source order. -/
def nameEntries (dirName name : String) : List (Bool × String) :=
  [ (!(name == "") && !(name.data.all isNameChar), msgNameShape name),
    (!(name == "") && badHyphens name.data, msgNameHyphen name),
    (!(name == "") && decide (64 < name.length), msgNameLong name.length),
    (!(name == "") && !(name == dirName), msgNameDir name dirName) ]

/-- The two description content checks as independent pairs, in source
order. -/
def descEntries (desc : String) : List (Bool × String) :=
  [ (!(desc == "") && (desc.data.contains '<' || desc.data.contains '>'), msgDescAngle),
    (!(desc == "") && decide (1024 < desc.length), msgDescLong desc.length) ]

/-- All checks of `validate_skill` before the final line-count check, as
independent (fail condition, message) pairs in the fixed source order:
file existence, marker presence, extraction, unexpected keys, name
presence, description presence, the four name content checks, the two
description content checks.  The two `isinstance` type guards of the source
can never fail under this parser and contribute no entry. -/
def preChecks (dirName : String) (content : Option String) : List (Bool × String) :=
  let c := content.getD ""
  let fm := parse_simple_yaml ((extractFm c).getD "")
  let unexpected :=
    sortStrs ((fm.map Prod.fst).filter (fun k => !(ALLOWED_PROPERTIES.contains k)))
  let name := pyStrip (dictGetD fm "name" "")
  let desc := pyStrip (dictGetD fm "description" "")
  [ (content.isNone, msgNoSkillMd),
    (!(mk3.isPrefixOf c.data), msgNoFrontmatter),
    ((extractFm c).isNone, msgInvalidFormat),
    (!(unexpected == []), msgUnexpected unexpected),
    (!(dictHas fm "name"), msgMissingName),
    (!(dictHas fm "description"), msgMissingDescription) ]
  ++ nameEntries dirName name ++ descEntries desc

/-- The final line-count check. -/
def lineEntry (content : Option String) : Bool × String :=
  let n := (splitChAux '\n' (content.getD "").data []).length
  (decide (500 < n), msgLines n)

/-- The full ordered check list of §4.2. -/
def checkSpec (dirName : String) (content : Option String) : List (Bool × String) :=
  preChecks dirName content ++ [lineEntry content]

/-- First failing check of an ordered list: the message of the first entry
whose condition holds. -/
def firstFail : List (Bool × String) → Option String
  | [] => none
  | (b, m) :: rest => if b then some m else firstFail rest

/-! ## init_skill (init_skill.py) -/

/-- Filesystem state threaded through the initializer: existing directory
paths, file contents, and permission bits.  Creation events are prepended,
so `fsRead` sees the most recent write of a path first (write semantics of
`write_text`). -/
structure FS where
  dirs : List String
  files : List (String × String)
  modes : List (String × Nat)
deriving DecidableEq

/-- Python `Path.exists()`: the path is a directory or a file. -/
def fsExists (fs : FS) (p : String) : Bool :=
  fs.dirs.contains p || fs.files.any (fun e => e.1 == p)

/-- `Path.mkdir` (parent creation is left implicit: the model tracks only
the paths the tool itself names). -/
def fsMkdir (fs : FS) (p : String) : FS := ⟨p :: fs.dirs, fs.files, fs.modes⟩

/-- `Path.write_text`. -/
def fsWrite (fs : FS) (p c : String) : FS := ⟨fs.dirs, (p, c) :: fs.files, fs.modes⟩

/-- `Path.chmod`. -/
def fsChmod (fs : FS) (p : String) (m : Nat) : FS := ⟨fs.dirs, fs.files, (p, m) :: fs.modes⟩

/-- Content of the file at `p`, most recent write first. -/
def fsRead (fs : FS) (p : String) : Option String :=
  (fs.files.find? (fun e => e.1 == p)).map Prod.snd

/-- `SKILL_TEMPLATE` (init_skill.py lines 17-52) with its two `format`
placeholders substituted. -/
def SKILL_TEMPLATE (skill_name skill_title : String) : String :=
  "---\nname: " ++ skill_name ++
  "\ndescription: [TODO: Explain what this skill does and when to use it. Include specific triggers like file types, tasks, or scenarios.]\n---\n\n# " ++
  skill_title ++
  "\n\n## Overview\n\n[TODO: 1-2 sentences explaining what this skill enables]\n\n## Workflow\n\n[TODO: Add the main workflow or instructions. Choose a structure that fits:\n\n**Workflow-Based** (sequential processes):\n## Workflow Decision Tree -> ## Step 1 -> ## Step 2...\n\n**Task-Based** (tool collections):\n## Quick Start -> ## Task 1 -> ## Task 2...\n\n**Reference/Guidelines** (standards):\n## Guidelines -> ## Specifications -> ## Usage...\n\nDelete this guidance section when done.]\n\n## Resources\n\nExample directories are included to demonstrate structure:\n\n- `scripts/`: Executable code (Python/Bash) for automation\n- `references/`: Documentation loaded into context as needed\n- `assets/`: Files used in output (templates, images, not loaded into context)\n\nDelete any unneeded directories.\n"

/-- `EXAMPLE_SCRIPT` (lines 54-67) with its placeholder substituted. -/
def EXAMPLE_SCRIPT (skill_name : String) : String :=
  "#!/usr/bin/env python3\n\"\"\"\nExample helper script for " ++ skill_name ++
  "\n\nReplace with actual implementation or delete if not needed.\n\"\"\"\n\ndef main():\n    print(\"Example script for " ++
  skill_name ++
  "\")\n    # TODO: Add actual script logic\n\nif __name__ == \"__main__\":\n    main()\n"

/-- `EXAMPLE_REFERENCE` (lines 69-78) with its placeholder substituted. -/
def EXAMPLE_REFERENCE (skill_title : String) : String :=
  "# Reference Documentation for " ++ skill_title ++
  "\n\nReplace with actual reference content or delete if not needed.\n\nReference docs are ideal for:\n- Comprehensive API documentation\n- Detailed workflow guides\n- Complex multi-step processes\n- Information too lengthy for main SKILL.md\n"

/-- `EXAMPLE_ASSET` (lines 80-87). -/
def EXAMPLE_ASSET : String :=
  "# Example Asset File\n\nReplace with actual asset files (templates, images, fonts, etc.) or delete if not needed.\n\nAsset files are NOT loaded into context but used in the output Claude produces.\n\nCommon asset types: .pptx, .docx, .png, .ttf, .csv, boilerplate directories\n"

/-- Python `str.capitalize()`: first character upper-cased, rest
lower-cased (ASCII range, which is all the tool's identifiers use). -/
def pyCapitalize (w : String) : String :=
  match w.data with
  | [] => ""
  | c :: rest => ⟨c.toUpper :: rest.map Char.toLower⟩

/-- `title_case_skill_name` (lines 90-92). -/
def title_case_skill_name (skill_name : String) : String :=
  String.intercalate " "
    ((splitChAux '-' skill_name.data []).map (fun w => pyCapitalize ⟨w⟩))

/-- `init_skill(skill_name, path)` (lines 95-154) over the explicit
filesystem state.  `Path(path).resolve() / skill_name` is modelled as path
concatenation with `/`.  Returns the created directory on success and
`none` if the target already exists; the I/O failure branches of the Python
`try`/`except` blocks have no counterpart because the modelled filesystem
operations always succeed. -/
def init_skill (skill_name path : String) (fs : FS) : Option String × FS :=
  let skill_dir := path ++ "/" ++ skill_name
  if fsExists fs skill_dir then (none, fs)
  else
    let fs1 := fsMkdir fs skill_dir
    let skill_title := title_case_skill_name skill_name
    let fs2 := fsWrite fs1 (skill_dir ++ "/SKILL.md") (SKILL_TEMPLATE skill_name skill_title)
    let fs3 := fsMkdir fs2 (skill_dir ++ "/scripts")
    let fs4 := fsWrite fs3 (skill_dir ++ "/scripts/example.py") (EXAMPLE_SCRIPT skill_name)
    let fs5 := fsChmod fs4 (skill_dir ++ "/scripts/example.py") 0o755
    let fs6 := fsMkdir fs5 (skill_dir ++ "/references")
    let fs7 := fsWrite fs6 (skill_dir ++ "/references/REFERENCE.md") (EXAMPLE_REFERENCE skill_title)
    let fs8 := fsMkdir fs7 (skill_dir ++ "/assets")
    let fs9 := fsWrite fs8 (skill_dir ++ "/assets/example_asset.txt") EXAMPLE_ASSET
    (some skill_dir, fs9)

/-! ## Derived definitions used by the claim statements -/

/-- Characters of the first line of a document: everything before the first
newline. -/
def takeUntilNl : List Char → List Char
  | [] => []
  | c :: rest => if c == '\n' then [] else c :: takeUntilNl rest

/-- The first line of a document. -/
def firstLineML (c : String) : String := ⟨takeUntilNl c.data⟩

/-- The keys of a parsed frontmatter that are outside `ALLOWED_PROPERTIES`,
in insertion order (the parser guarantees the keys are distinct, matching
the set difference computed by the source). -/
def unexpectedKeys (fmText : String) : List String :=
  ((parse_simple_yaml fmText).map Prod.fst).filter
    (fun k => !(ALLOWED_PROPERTIES.contains k))

/-- Corrected description of header extraction for a document: extraction
fails exactly when the text does not begin with `---` plus a newline or the
four characters newline-`-`-`-`-`-` never occur after that prefix; on
success the header is the region before the earliest such occurrence (the
closing `---` need not stand on a line of its own, and its leading newline
cannot be the one that ends the opening marker line).  Extraction failure
surfaces as the fixed invalid-format message. -/
def extractBehavior (c : String) : Prop :=
  (extractFm c = none ↔
    ¬ ((mk4 <+: c.data) ∧ ∃ k, nlMarker <+: (c.data.drop 4).drop k))
  ∧ (∀ hdr, extractFm c = some hdr →
      (mk4 <+: c.data) ∧
      ∃ k, hdr = (⟨(c.data.drop 4).take k⟩ : String) ∧
        (nlMarker <+: (c.data.drop 4).drop k) ∧
        ∀ j, j < k → ¬ nlMarker <+: (c.data.drop 4).drop j)
  ∧ (extractFm c = none →
      ∀ dirName, validate_skill dirName (some c) = (false, msgInvalidFormat))

/-- A well-formed document whose full text splits into exactly 501 lines. -/
def longDoc501 : String :=
  "---\nname: x\ndescription: y\n---" ++ (⟨List.replicate 497 '\n'⟩ : String)

/-- A well-formed document with five lines. -/
def shortDoc5 : String := "---\nname: x\ndescription: y\n---\n"

/-- Outcome asserted for a document whose header carries unexpected keys:
the validator fails with a message listing exactly the offending keys,
sorted and comma-joined, followed by the allowed set, sorted and
comma-joined. -/
def unexpectedOutcome (dirName c fmText : String) : Prop :=
  validate_skill dirName (some c) =
    (false, msgUnexpected (sortStrs (unexpectedKeys fmText)))
  ∧ msgUnexpected (sortStrs (unexpectedKeys fmText)) =
      "Unexpected key(s) in frontmatter: " ++
        String.intercalate ", " (sortStrs (unexpectedKeys fmText)) ++
        ". Allowed: allowed-tools, description, license, metadata, name"
  ∧ List.Sorted strLeP (sortStrs (unexpectedKeys fmText))
  ∧ (sortStrs (unexpectedKeys fmText)).Perm (unexpectedKeys fmText)
  ∧ ∀ s, s ∈ sortStrs (unexpectedKeys fmText) ↔
      (s ∈ (parse_simple_yaml fmText).map Prod.fst ∧ s ∉ ALLOWED_PROPERTIES)

/-! ## Helper lemmas -/

theorem lexLe_total (a : List Char) : ∀ b, lexLe a b = true ∨ lexLe b a = true := by
  induction a with
  | nil => intro b; left; rfl
  | cons x xs ih =>
    intro b
    cases b with
    | nil => right; rfl
    | cons y ys =>
      simp only [lexLe]
      by_cases h1 : x.toNat < y.toNat
      · left; simp [h1]
      · by_cases h2 : y.toNat < x.toNat
        · right; simp [h2]
        · rcases ih ys with h | h
          · left; simp [h1, h2, h]
          · right; simp [h1, h2, h]

theorem lexLe_trans (a : List Char) :
    ∀ b c, lexLe a b = true → lexLe b c = true → lexLe a c = true := by
  induction a with
  | nil => intro b c _ _; rfl
  | cons x xs ih =>
    intro b c hab hbc
    cases b with
    | nil => simp [lexLe] at hab
    | cons y ys =>
      cases c with
      | nil => simp [lexLe] at hbc
      | cons z zs =>
        simp only [lexLe] at hab hbc ⊢
        by_cases h1 : x.toNat < y.toNat
        · by_cases h3 : y.toNat < z.toNat
          · have h5 : x.toNat < z.toNat := Nat.lt_trans h1 h3
            rw [if_pos h5]
          · by_cases h4 : z.toNat < y.toNat
            · rw [if_neg h3, if_pos h4] at hbc
              exact Bool.noConfusion hbc
            · have h5 : x.toNat < z.toNat := by omega
              rw [if_pos h5]
        · by_cases h2 : y.toNat < x.toNat
          · rw [if_neg h1, if_pos h2] at hab
            exact Bool.noConfusion hab
          · have hxy : x.toNat = y.toNat := by omega
            rw [if_neg h1, if_neg h2] at hab
            by_cases h3 : y.toNat < z.toNat
            · have h5 : x.toNat < z.toNat := by omega
              rw [if_pos h5]
            · by_cases h4 : z.toNat < y.toNat
              · rw [if_neg h3, if_pos h4] at hbc
                exact Bool.noConfusion hbc
              · rw [if_neg h3, if_neg h4] at hbc
                have h5 : ¬ x.toNat < z.toNat := by omega
                have h6 : ¬ z.toNat < x.toNat := by omega
                rw [if_neg h5, if_neg h6]
                exact ih ys zs hab hbc

instance : IsTotal String strLeP := ⟨fun a b => lexLe_total a.data b.data⟩

instance : IsTrans String strLeP := ⟨fun a b c => lexLe_trans a.data b.data c.data⟩

theorem sortStrs_perm (l : List String) : (sortStrs l).Perm l :=
  List.perm_insertionSort strLeP l

theorem sortStrs_sorted (l : List String) : List.Sorted strLeP (sortStrs l) :=
  List.sorted_insertionSort strLeP l

theorem sortStrs_eq_nil_iff (l : List String) : sortStrs l = [] ↔ l = [] := by
  constructor
  · intro h
    have hp := sortStrs_perm l
    rw [h] at hp
    exact (List.nil_perm).mp hp
  · intro h
    rw [h]
    rfl

theorem firstFail_append (xs ys : List (Bool × String)) :
    firstFail (xs ++ ys) = (firstFail xs).orElse (fun _ => firstFail ys) := by
  induction xs with
  | nil => rfl
  | cons e rest ih =>
    obtain ⟨b, m⟩ := e
    cases b <;> simp [firstFail, ih, Option.orElse]

theorem dictGet?_insert_self (k v : String) (d : List (String × String)) :
    dictGet? (dictInsert k v d) k = some v := by
  induction d with
  | nil => simp [dictInsert, dictGet?, List.find?]
  | cons e rest ih =>
    obtain ⟨k2, v2⟩ := e
    by_cases h : k2 = k
    · simp [dictInsert, h, dictGet?, List.find?]
    · simp only [dictInsert, if_neg h]
      unfold dictGet?
      rw [List.find?_cons_of_neg]
      · exact ih
      · simp [h]

theorem dictGet?_insert_other (k k2 v : String) (d : List (String × String))
    (h : k2 ≠ k) : dictGet? (dictInsert k2 v d) k = dictGet? d k := by
  have hb : (k2 == k) = false := by
    rw [beq_eq_false_iff_ne]
    exact h
  induction d with
  | nil => simp [dictInsert, dictGet?, List.find?, hb]
  | cons e rest ih =>
    obtain ⟨k3, v3⟩ := e
    by_cases h3 : k3 = k2
    · subst h3
      have hstep : dictInsert k3 v ((k3, v3) :: rest) = (k3, v) :: rest := by
        simp [dictInsert]
      rw [hstep]
      unfold dictGet?
      rw [List.find?_cons_of_neg _ (by simpa using hb),
        List.find?_cons_of_neg _ (by simpa using hb)]
    · have hstep : dictInsert k2 v ((k3, v3) :: rest) = (k3, v3) :: dictInsert k2 v rest := by
        simp [dictInsert, h3]
      rw [hstep]
      by_cases h4 : k3 = k
      · subst h4
        unfold dictGet?
        rw [List.find?_cons_of_pos _ (by simp), List.find?_cons_of_pos _ (by simp)]
      · unfold dictGet?
        rw [List.find?_cons_of_neg _ (by simp [h4]), List.find?_cons_of_neg _ (by simp [h4])]
        exact ih

theorem dictHas_of_get (d : List (String × String)) (k v : String)
    (h : dictGet? d k = some v) : dictHas d k = true := by
  unfold dictGet? at h
  unfold dictHas
  cases hf : d.find? (fun e => e.1 == k) with
  | none => rw [hf] at h; simp at h
  | some e =>
    have hmem := List.mem_of_find?_eq_some hf
    have hp := List.find?_some hf
    rw [List.any_eq_true]
    exact ⟨e, hmem, hp⟩

theorem processLine_preserves (d : List (String × String)) (line k : String)
    (h : ∀ v2, lineParse line ≠ some (k, v2)) :
    dictGet? (processLine d line) k = dictGet? d k := by
  unfold processLine
  cases hl : lineParse line with
  | none => rfl
  | some kv =>
    obtain ⟨k2, v2⟩ := kv
    have hk : k2 ≠ k := by
      intro he
      subst he
      exact h v2 hl
    exact dictGet?_insert_other k k2 v2 d hk

theorem parseLines_append (d : List (String × String)) (ls1 ls2 : List String) :
    parseLines d (ls1 ++ ls2) = parseLines (parseLines d ls1) ls2 := by
  induction ls1 generalizing d with
  | nil => rfl
  | cons l ls ih => simp [parseLines, ih]

theorem parseLines_preserves (ls : List String) (d : List (String × String)) (k : String)
    (h : ∀ l ∈ ls, ∀ v2, lineParse l ≠ some (k, v2)) :
    dictGet? (parseLines d ls) k = dictGet? d k := by
  induction ls generalizing d with
  | nil => rfl
  | cons l ls ih =>
    simp only [parseLines]
    rw [ih (processLine d l) (fun x hx => h x (List.mem_cons_of_mem l hx))]
    exact processLine_preserves d l k (h l (List.mem_cons_self l ls))

theorem findPat_eq_none_iff (pat : List Char) (hpat : pat ≠ []) (l : List Char) :
    findPat pat l = none ↔ ∀ k, ¬ pat <+: l.drop k := by
  induction l with
  | nil =>
    constructor
    · intro _ k hpre
      rw [List.drop_nil] at hpre
      exact hpat (List.prefix_nil.mp hpre)
    · intro _; rfl
  | cons c rest ih =>
    simp only [findPat]
    by_cases hp : pat <+: c :: rest
    · rw [if_pos ( List.isPrefixOf_iff_prefix.mpr hp)]
      constructor
      · intro h; exact Option.noConfusion h
      · intro h
        exact absurd hp (by simpa using h 0)
    · rw [if_neg (fun hb => hp ( List.isPrefixOf_iff_prefix.mp hb))]
      constructor
      · intro h k
        have hm : findPat pat rest = none := by
          cases h2 : findPat pat rest with
          | none => rfl
          | some n => rw [h2] at h; simp at h
        cases k with
        | zero => simpa using hp
        | succ k2 => simpa using (ih.mp hm) k2
      · intro h
        have : findPat pat rest = none := ih.mpr (fun k => by simpa using h (k + 1))
        simp [this]

theorem findPat_eq_some_iff (pat : List Char) (hpat : pat ≠ []) (l : List Char) :
    ∀ k, findPat pat l = some k ↔
      ((pat <+: l.drop k) ∧ ∀ j, j < k → ¬ pat <+: l.drop j) := by
  induction l with
  | nil =>
    intro k
    constructor
    · intro h; exact Option.noConfusion h
    · rintro ⟨h1, _⟩
      rw [List.drop_nil] at h1
      exact absurd (List.prefix_nil.mp h1) hpat
  | cons c rest ih =>
    intro k
    simp only [findPat]
    by_cases hp : pat <+: c :: rest
    · rw [if_pos ( List.isPrefixOf_iff_prefix.mpr hp)]
      constructor
      · intro h
        injection h with h
        subst h
        exact ⟨by simpa using hp, by intro j hj; omega⟩
      · rintro ⟨h1, h2⟩
        cases k with
        | zero => rfl
        | succ k2 => exact absurd hp (by simpa using h2 0 (Nat.succ_pos k2))
    · rw [if_neg (fun hb => hp ( List.isPrefixOf_iff_prefix.mp hb))]
      constructor
      · intro h
        rw [Option.map_eq_some'] at h
        obtain ⟨k2, hk2, hke⟩ := h
        subst hke
        obtain ⟨h1, h2⟩ := (ih k2).mp hk2
        refine ⟨by simpa using h1, ?_⟩
        intro j hj
        cases j with
        | zero => simpa using hp
        | succ j2 => simpa using h2 j2 (by omega)
      · rintro ⟨h1, h2⟩
        cases k with
        | zero => exact absurd (by simpa using h1) hp
        | succ k2 =>
          have := (ih k2).mpr
            ⟨by simpa using h1, fun j hj => by simpa using h2 (j + 1) (by omega)⟩
          simp [this]


theorem str_append_ne (s : String) {t u : String} (h : t ≠ u) :
    ((s ++ t) == (s ++ u)) = false := by
  rw [beq_eq_false_iff_ne]
  intro he
  apply h
  have hd := congrArg String.data he
  rw [String.data_append, String.data_append] at hd
  exact String.ext (List.append_cancel_left hd)

theorem extractFm_none_of_no_mk4 (c : String) (h : mk4.isPrefixOf c.data = false) :
    extractFm c = none := by
  unfold extractFm
  simp [h]

/-! ## Claim theorems -/

/-- C8: when the target directory `destination/identifier` already exists,
`init_skill` returns the failure indicator (no created path) and leaves the
filesystem state completely unchanged: no directory is created, no file is
written, and no permission bit is changed. -/
theorem init_C8_existing_target (skill_name path : String) (fs : FS)
    (h : fsExists fs (path ++ "/" ++ skill_name) = true) :
    init_skill skill_name path fs = (none, fs) := by
  unfold init_skill
  simp [h]

theorem init_C8_existing_target_witness :
    fsExists ⟨["p/s"], [], []⟩ ("p" ++ "/" ++ "s") = true ∧
    init_skill "s" "p" ⟨["p/s"], [], []⟩ = ((none : Option String), ⟨["p/s"], [], []⟩) :=
  ⟨by decide, init_C8_existing_target "s" "p" ⟨["p/s"], [], []⟩ (by decide)⟩

/-- C10: a document whose text starts with `---` but whose first line is
not exactly `---` (for example `----` or `--- ` before the newline) passes
the marker-presence check but fails extraction, so the validator reports
the invalid-format message, not the no-frontmatter message. -/
theorem validate_C10_invalid_format (dirName c : String)
    (h3 : mk3.isPrefixOf c.data = true)
    (hline : firstLineML c ≠ "---") :
    validate_skill dirName (some c) = (false, msgInvalidFormat) := by
  have h4 : mk4.isPrefixOf c.data = false := by
    cases hb : mk4.isPrefixOf c.data with
    | false => rfl
    | true =>
      exfalso
      apply hline
      obtain ⟨t, ht⟩ := List.isPrefixOf_iff_prefix.mp hb
      unfold firstLineML
      rw [← ht]
      show (⟨takeUntilNl ('-' :: '-' :: '-' :: '\n' :: t)⟩ : String) = "---"
      have e1 : ('-' == '\n') = false := by decide
      have e2 : ('\n' == '\n') = true := by decide
      simp only [takeUntilNl, e1, e2, Bool.false_eq_true, if_false, if_true]
  unfold validate_skill
  simp [h3, extractFm_none_of_no_mk4 c h4]

theorem validate_C10_invalid_format_witness :
    mk3.isPrefixOf ("----\nx\n---\n").data = true ∧
    firstLineML "----\nx\n---\n" ≠ "---" ∧
    validate_skill "d" (some "----\nx\n---\n") = (false, "Invalid frontmatter format") :=
  ⟨by decide, by decide,
    validate_C10_invalid_format "d" "----\nx\n---\n" (by decide) (by decide)⟩

/-- C9: a header line `key: value` whose value after whitespace trimming is
a single quote character (exactly a double quote or exactly a single quote)
is stored with the empty string as its value: the one-character value both
starts and ends with the quote character, so `value[1:-1]` strips it away
entirely. -/
theorem parse_C9_single_quote (line k : String) (raw : List Char)
    (hsplit : splitKeyRaw (pyStripL line.data) = some (k, raw))
    (hq : pyStripL raw = ['\"'] ∨ pyStripL raw = ['\x27']) :
    lineParse line = some (k, "") := by
  unfold lineParse
  have hne : pyStripL line.data ≠ [] := by
    intro h0
    rw [h0] at hsplit
    exact Option.noConfusion hsplit
  rw [if_neg hne]
  have hhash : ((pyStripL line.data).head? == some '#') = false := by
    cases hl : pyStripL line.data with
    | nil => exact absurd hl hne
    | cons c t =>
      by_cases hc : c = '#'
      · subst hc
        exfalso
        rw [hl] at hsplit
        have htk : List.takeWhile isKeyChar ('#' :: t) = [] := by
          have : isKeyChar '#' = false := by decide
          simp [List.takeWhile_cons, this]
        unfold splitKeyRaw at hsplit
        rw [htk] at hsplit
        exact Option.noConfusion hsplit
      · simp [hc]
  rw [hhash]
  simp only [Bool.false_eq_true, if_false]
  rw [hsplit]
  show some (k, stripQuotes (⟨pyStripL raw⟩ : String)) = some (k, "")
  rcases hq with h | h <;> rw [h] <;>
    exact congrArg (fun v => some (k, v)) (by decide)

theorem parse_C9_single_quote_witness :
    splitKeyRaw (pyStripL ("key: \"").data) = some ("key", [' ', '\"']) ∧
    lineParse "key: \"" = some ("key", "") :=
  ⟨by decide,
    parse_C9_single_quote "key: \"" "key" [' ', '\"'] (by decide) (Or.inl (by decide))⟩

/-- C6: duplicate header keys resolve last-write-wins: if the stripped and
split header text has a parseable line binding key `k` and no later line
binds `k`, the parsed dictionary maps `k` to that line's value, whatever
earlier lines said; no error or warning is produced (the parser is a total
function). -/
theorem parse_C6_last_write_wins (text : String) (ls1 ls2 : List String)
    (line k v : String)
    (hsplit : (splitChAux '\n' (pyStripL text.data) []).map
        (fun l => (⟨l⟩ : String)) = ls1 ++ line :: ls2)
    (hline : lineParse line = some (k, v))
    (hrest : ∀ l ∈ ls2, ∀ v2, lineParse l ≠ some (k, v2)) :
    dictGet? (parse_simple_yaml text) k = some v := by
  unfold parse_simple_yaml
  rw [hsplit, parseLines_append]
  show dictGet? (parseLines (parseLines [] ls1) (line :: ls2)) k = some v
  rw [show parseLines (parseLines [] ls1) (line :: ls2) =
      parseLines (processLine (parseLines [] ls1) line) ls2 from rfl]
  rw [parseLines_preserves ls2 _ k hrest]
  unfold processLine
  rw [hline]
  exact dictGet?_insert_self k v (parseLines [] ls1)

theorem parse_C6_last_write_wins_witness :
    (splitChAux '\n' (pyStripL ("name: a\nname: b").data) []).map
        (fun l => (⟨l⟩ : String)) = ["name: a"] ++ "name: b" :: [] ∧
    lineParse "name: b" = some ("name", "b") ∧
    dictGet? (parse_simple_yaml "name: a\nname: b") "name" = some "b" :=
  ⟨by decide, by decide,
    parse_C6_last_write_wins "name: a\nname: b" ["name: a"] [] "name: b" "name" "b"
      (by decide) (by decide) (by intro l hl; exact absurd hl (List.not_mem_nil l))⟩

/-- C2 (counterexample): the document `---\n---` starts with the marker and
has a second `---` on its own line, yet extraction fails — the closing
marker needs its own preceding newline, which here is already consumed by
the opening marker line — so the claim that extraction fails exactly when
no second marker line exists is false at this input. -/
theorem extract_C2_counterexample :
    mk3.isPrefixOf ("---\n---").data = true
    ∧ (((splitLinesML "---\n---").drop 1).contains "---") = true
    ∧ extractFm "---\n---" = none
    ∧ validate_skill "s" (some "---\n---") = (false, "Invalid frontmatter format") :=
  ⟨by decide, by decide, by decide, by decide⟩

/-- C2 (amended): for a document starting with `---`, extraction fails iff
the text does not start with `---` plus newline or the four-character
sequence newline-`---` does not occur after that opening; on success the
header is the shortest span before the earliest such occurrence, and
extraction failure is reported as the invalid-format message. -/
theorem extract_C2_amended (c : String) (h3 : mk3.isPrefixOf c.data = true) :
    extractBehavior c := by
  refine ⟨?_, ?_, ?_⟩
  · unfold extractFm
    by_cases h4 : mk4 <+: c.data
    · rw [if_pos ( List.isPrefixOf_iff_prefix.mpr h4)]
      cases hf : findPat nlMarker (c.data.drop 4) with
      | some k =>
        constructor
        · intro h; exact Option.noConfusion h
        · intro hcon
          exfalso
          apply hcon
          exact ⟨h4, k, ((findPat_eq_some_iff nlMarker (by decide) _ k).mp hf).1⟩
      | none =>
        constructor
        · intro _
          rintro ⟨_, k, hk⟩
          exact ((findPat_eq_none_iff nlMarker (by decide) _).mp hf) k hk
        · intro _; rfl
    · rw [if_neg (fun hb => h4 ( List.isPrefixOf_iff_prefix.mp hb))]
      constructor
      · intro _
        rintro ⟨h4b, _⟩
        exact h4 h4b
      · intro _; rfl
  · intro hdr hex
    unfold extractFm at hex
    by_cases h4 : mk4 <+: c.data
    · rw [if_pos ( List.isPrefixOf_iff_prefix.mpr h4)] at hex
      cases hf : findPat nlMarker (c.data.drop 4) with
      | none => rw [hf] at hex; exact Option.noConfusion hex
      | some k =>
        rw [hf] at hex
        injection hex with hex
        obtain ⟨h1, h2⟩ := (findPat_eq_some_iff nlMarker (by decide) _ k).mp hf
        exact ⟨h4, k, hex.symm, h1, h2⟩
    · rw [if_neg (fun hb => h4 ( List.isPrefixOf_iff_prefix.mp hb))] at hex
      exact Option.noConfusion hex
  · intro hnone dirName
    unfold validate_skill
    simp [h3, hnone]

theorem extract_C2_amended_witness :
    mk3.isPrefixOf ("---\nname: a\n---x").data = true ∧
    extractBehavior "---\nname: a\n---x" :=
  ⟨by decide, extract_C2_amended "---\nname: a\n---x" (by decide)⟩

theorem sortStrs_nil : sortStrs [] = [] := rfl

/-- C5: a present `name` whose value strips to the empty string skips all
four name content checks while still satisfying the presence requirement,
and likewise an empty stripped `description` skips its two content checks,
so such a document validates successfully for every directory name,
including one the name does not match. -/
theorem validate_C5_empty_values (dirName c fmText nv dv : String)
    (hstart : mk3.isPrefixOf c.data = true)
    (hex : extractFm c = some fmText)
    (hkeys : unexpectedKeys fmText = [])
    (hn : dictGet? (parse_simple_yaml fmText) "name" = some nv)
    (hd : dictGet? (parse_simple_yaml fmText) "description" = some dv)
    (hne : pyStrip nv = "")
    (hde : pyStrip dv = "")
    (hlines : (splitChAux '\n' c.data []).length ≤ 500) :
    validate_skill dirName (some c) = (true, msgValid) := by
  have hhn := dictHas_of_get _ _ _ hn
  have hhd := dictHas_of_get _ _ _ hd
  have hkeys2 : ((parse_simple_yaml fmText).map Prod.fst).filter
      (fun k => !(ALLOWED_PROPERTIES.contains k)) = [] := hkeys
  have hkeys3 : List.filter (fun k => !decide (k ∈ ALLOWED_PROPERTIES))
      (List.map Prod.fst (parse_simple_yaml fmText)) = [] := by
    simpa using hkeys2
  have hlf : ¬ 500 < (splitChAux '\n' c.data []).length := by omega
  simp [validate_skill, hstart, hex, hkeys3, sortStrs_nil, hhn, hhd,
    dictGetD, hn, hd, hne, hde, nameCheck, descCheck, hlf]

theorem validate_C5_empty_values_witness :
    pyStrip "" = "" ∧
    validate_skill "not-the-name" (some "---\nname:\ndescription:\n---") =
      (true, "Skill is valid!") :=
  ⟨by decide,
    validate_C5_empty_values "not-the-name" "---\nname:\ndescription:\n---"
      "name:\ndescription:" "" "" (by decide) (by decide) (by decide) (by decide)
      (by decide) (by decide) (by decide) (by decide)⟩

/-- C4: a document whose parsed header contains keys outside the allowed
set fails validation (once the earlier existence and extraction checks
pass), and the failure message lists exactly the offending keys, sorted and
comma-joined, followed by the allowed set, sorted and comma-joined. -/
theorem validate_C4_unexpected_keys (dirName c fmText : String)
    (hstart : mk3.isPrefixOf c.data = true)
    (hex : extractFm c = some fmText)
    (hbad : unexpectedKeys fmText ≠ []) :
    unexpectedOutcome dirName c fmText := by
  have hbad2 : sortStrs (unexpectedKeys fmText) ≠ [] := by
    intro h
    exact hbad ((sortStrs_eq_nil_iff _).mp h)
  have hbad3 : sortStrs (List.filter (fun k => !decide (k ∈ ALLOWED_PROPERTIES))
      (List.map Prod.fst (parse_simple_yaml fmText))) ≠ [] := by
    have : sortStrs (((parse_simple_yaml fmText).map Prod.fst).filter
        (fun k => !(ALLOWED_PROPERTIES.contains k))) ≠ [] := hbad2
    simpa using this
  have hall : String.intercalate ", " (sortStrs ALLOWED_PROPERTIES) =
      "allowed-tools, description, license, metadata, name" := by decide
  refine ⟨?_, ?_, sortStrs_sorted _, sortStrs_perm _, ?_⟩
  · simp [validate_skill, hstart, hex, hbad3, unexpectedKeys]
  · unfold msgUnexpected
    rw [hall, String.append_assoc]
    congr 1
  · intro s
    rw [List.Perm.mem_iff (sortStrs_perm _)]
    unfold unexpectedKeys
    rw [List.mem_filter]
    simp

theorem validate_C4_unexpected_keys_witness :
    unexpectedKeys "name: x\nfoo: 1\nzzz: 2" ≠ [] ∧
    unexpectedOutcome "d" "---\nname: x\nfoo: 1\nzzz: 2\n---\n" "name: x\nfoo: 1\nzzz: 2" :=
  ⟨by decide,
    validate_C4_unexpected_keys "d" "---\nname: x\nfoo: 1\nzzz: 2\n---\n"
      "name: x\nfoo: 1\nzzz: 2" (by decide) (by decide) (by decide)⟩

set_option maxRecDepth 8000

/-- C1: initializing `my-new-skill` under any destination whose target
directory does not yet exist returns the created path, and validating the
produced directory (whose base name is `my-new-skill` and whose `SKILL.md`
is the instantiated template) yields the fixed success result. -/
theorem init_validate_roundtrip_C1 (path : String) (fs : FS)
    (h : fsExists fs (path ++ "/" ++ "my-new-skill") = false) :
    (init_skill "my-new-skill" path fs).1 = some (path ++ "/" ++ "my-new-skill")
    ∧ validate_skill "my-new-skill"
        (fsRead (init_skill "my-new-skill" path fs).2
          (path ++ "/" ++ "my-new-skill" ++ "/SKILL.md")) = (true, msgValid) := by
  have e1 : ((path ++ "/" ++ "my-new-skill" ++ "/assets/example_asset.txt") ==
      (path ++ "/" ++ "my-new-skill" ++ "/SKILL.md")) = false :=
    str_append_ne _ (by decide)
  have e2 : ((path ++ "/" ++ "my-new-skill" ++ "/references/REFERENCE.md") ==
      (path ++ "/" ++ "my-new-skill" ++ "/SKILL.md")) = false :=
    str_append_ne _ (by decide)
  have e3 : ((path ++ "/" ++ "my-new-skill" ++ "/scripts/example.py") ==
      (path ++ "/" ++ "my-new-skill" ++ "/SKILL.md")) = false :=
    str_append_ne _ (by decide)
  constructor
  · simp [init_skill, h]
  · simp [init_skill, h, fsRead, fsMkdir, fsWrite, fsChmod, List.find?, e1, e2, e3]
    decide

theorem init_validate_roundtrip_C1_witness :
    fsExists ⟨[], [], []⟩ ("skills" ++ "/" ++ "my-new-skill") = false ∧
    ((init_skill "my-new-skill" "skills" ⟨[], [], []⟩).1 =
        some ("skills" ++ "/" ++ "my-new-skill")
      ∧ validate_skill "my-new-skill"
          (fsRead (init_skill "my-new-skill" "skills" ⟨[], [], []⟩).2
            ("skills" ++ "/" ++ "my-new-skill" ++ "/SKILL.md")) = (true, msgValid)) :=
  ⟨by decide, init_validate_roundtrip_C1 "skills" ⟨[], [], []⟩ (by decide)⟩

theorem nameCheck_eq_firstFail (dirName name : String) :
    nameCheck dirName name = firstFail (nameEntries dirName name) := by
  by_cases h0 : name = ""
  · simp [nameCheck, nameEntries, firstFail, h0]
  · have hb : (name == "") = false := by simp [h0]
    by_cases h4 : name = dirName
    · subst h4
      by_cases h1 : name.data.all isNameChar = true <;>
      by_cases h2 : badHyphens name.data = true <;>
      by_cases h3 : 64 < name.length <;>
        simp [nameCheck, nameEntries, firstFail, h0, hb, h1, h2, h3]
    · by_cases h1 : name.data.all isNameChar = true <;>
      by_cases h2 : badHyphens name.data = true <;>
      by_cases h3 : 64 < name.length <;>
        simp [nameCheck, nameEntries, firstFail, h0, hb, h1, h2, h3, h4]

theorem descCheck_eq_firstFail (desc : String) :
    descCheck desc = firstFail (descEntries desc) := by
  by_cases h0 : desc = ""
  · simp [descCheck, descEntries, firstFail, h0]
  · have hb : (desc == "") = false := by simp [h0]
    by_cases h1 : (desc.data.contains '<' || desc.data.contains '>') = true <;>
    by_cases h2 : 1024 < desc.length <;>
      simp [descCheck, descEntries, firstFail, h0, hb, h1, h2]

theorem firstFail_nil : firstFail [] = none := rfl

theorem firstFail_cons (b : Bool) (m : String) (rest : List (Bool × String)) :
    firstFail ((b, m) :: rest) = if b then some m else firstFail rest := rfl

theorem validate_eq_firstFail (dirName : String) (content : Option String) :
    validate_skill dirName content =
      match firstFail (checkSpec dirName content) with
      | some m => (false, m)
      | none => (true, msgValid) := by
  cases content with
  | none => rfl
  | some c =>
    by_cases hp : mk3.isPrefixOf c.data = true
    case neg =>
      have hp2 : mk3.isPrefixOf c.data = false := by
        cases h2 : mk3.isPrefixOf c.data with
        | false => rfl
        | true => exact absurd h2 hp
      simp [validate_skill, checkSpec, preChecks, lineEntry, firstFail, hp2,
        nameEntries, descEntries]
    case pos =>
      cases hE : extractFm c with
      | none =>
        simp [validate_skill, checkSpec, preChecks, lineEntry, firstFail, hp, hE,
          nameEntries, descEntries]
      | some fmText =>
        have hN := nameCheck_eq_firstFail dirName
          (pyStrip (dictGetD (parse_simple_yaml fmText) "name" ""))
        have hD := descCheck_eq_firstFail
          (pyStrip (dictGetD (parse_simple_yaml fmText) "description" ""))
        by_cases h4 : sortStrs (List.filter (fun k => !decide (k ∈ ALLOWED_PROPERTIES))
            (List.map Prod.fst (parse_simple_yaml fmText))) = []
        case neg =>
          simp [validate_skill, checkSpec, preChecks, lineEntry, hp, hE, h4,
            firstFail_cons, firstFail_append, firstFail_nil]
        case pos =>
          by_cases h5 : dictHas (parse_simple_yaml fmText) "name" = true
          case neg =>
            have h5b : dictHas (parse_simple_yaml fmText) "name" = false := by
              cases h2 : dictHas (parse_simple_yaml fmText) "name" with
              | false => rfl
              | true => exact absurd h2 h5
            simp [validate_skill, checkSpec, preChecks, lineEntry, hp, hE, h4, h5b,
              firstFail_cons, firstFail_append, firstFail_nil]
          case pos =>
            by_cases h6 : dictHas (parse_simple_yaml fmText) "description" = true
            case neg =>
              have h6b : dictHas (parse_simple_yaml fmText) "description" = false := by
                cases h2 : dictHas (parse_simple_yaml fmText) "description" with
                | false => rfl
                | true => exact absurd h2 h6
              simp [validate_skill, checkSpec, preChecks, lineEntry, hp, hE, h4, h5, h6b,
                firstFail_cons, firstFail_append, firstFail_nil]
            case pos =>
              cases hNv : nameCheck dirName
                  (pyStrip (dictGetD (parse_simple_yaml fmText) "name" "")) with
              | some m =>
                have hN2 := hN.symm.trans hNv
                simp [validate_skill, checkSpec, preChecks, lineEntry, hp, hE, h4, h5, h6,
                  hNv, hN2, firstFail_cons, firstFail_append, firstFail_nil]
              | none =>
                have hN2 := hN.symm.trans hNv
                cases hDv : descCheck
                    (pyStrip (dictGetD (parse_simple_yaml fmText) "description" "")) with
                | some m =>
                  have hD2 := hD.symm.trans hDv
                  simp [validate_skill, checkSpec, preChecks, lineEntry, hp, hE, h4, h5, h6,
                    hNv, hN2, hDv, hD2, firstFail_cons, firstFail_append, firstFail_nil]
                | none =>
                  have hD2 := hD.symm.trans hDv
                  by_cases h7 : 500 < (splitChAux '\n' c.data []).length
                  all_goals
                    simp [validate_skill, checkSpec, preChecks, lineEntry, hp, hE, h4, h5,
                      h6, hNv, hN2, hDv, hD2, h7, firstFail_cons, firstFail_append,
                      firstFail_nil]

/-- C3: the validator is a total function returning exactly one
(bool, message) pair, and a failing run reports the message of the first
failing check in the fixed order of §4.2 — file existence, marker presence,
extraction, unexpected keys, name presence, description presence, the four
name content checks, the two description content checks, line count — even
when later checks would also fail.  (The mapping-type and value-type guards
of the source can never fail under this parser and so never supply the
message.) -/
theorem validate_C3_first_failure (dirName : String) (content : Option String) :
    validate_skill dirName content =
      match firstFail (checkSpec dirName content) with
      | some m => (false, m)
      | none => (true, msgValid) :=
  validate_eq_firstFail dirName content

/-- C7: for a document passing every check before the line count, the
validator succeeds when splitting the text on line breaks yields at most
500 parts and fails with a message reporting the observed count when it
yields more — in particular a 501-part document fails reporting 501. -/
theorem validate_C7_line_count (dirName c : String)
    (hpre : firstFail (preChecks dirName (some c)) = none) :
    validate_skill dirName (some c) =
      if 500 < (splitChAux '\n' c.data []).length
      then (false, msgLines ((splitChAux '\n' c.data []).length))
      else (true, msgValid) := by
  rw [validate_eq_firstFail]
  unfold checkSpec
  rw [firstFail_append, hpre]
  by_cases h7 : 500 < (splitChAux '\n' c.data []).length <;>
    simp [lineEntry, firstFail_cons, firstFail_nil, h7]

theorem validate_C7_line_count_witness :
    validate_skill "x" (some longDoc501) =
      (false, "SKILL.md has 501 lines. Maximum recommended is 500.")
    ∧ validate_skill "x" (some shortDoc5) = (true, "Skill is valid!") := by
  constructor
  · rw [validate_C7_line_count "x" longDoc501 (by decide)]
    decide
  · rw [validate_C7_line_count "x" shortDoc5 (by decide)]
    decide
